import Mathlib

set_option maxHeartbeats 1000000

/-!
Shallow embedding of `src/main.go` (mini-containerd), a minimal OCI-style
container launcher, and proofs about the behaviour of its operations.

The program is straight-line systems code built from kernel calls
(mount, unmount, sethostname, setgid, setuid, exec).  Each function is
embedded as a pure Lean function from the data it reads (the loaded
`Spec`, the host state, a `World` that fixes the result of every kernel
call) to the sequence of kernel calls it issues (a `Trace` of
`SysEvent`s) and its final `Outcome`.  A failing fatal call makes the
Go code `panic`, modelled as `Outcome.panicked`; the Go runtime then
terminates the process with its fixed panic status, which is never the
exit code of any child process.
-/

namespace MiniContainerd

/-! ## Spec model: the fields of the OCI runtime spec the program reads.
`specs.Spec.Root`, `.Process` and `.Linux` are pointers in Go
(`github.com/opencontainers/runtime-spec/specs-go`); `none` models a nil
pointer, which the program dereferences without a check. -/

structure UserSpec where
  uid : Nat
  gid : Nat
deriving DecidableEq

structure ProcessSpec where
  args : List String
  env : List String
  cwd : String
  user : UserSpec
deriving DecidableEq

structure RootSpec where
  path : String
  readonly : Bool
deriving DecidableEq

structure MountSpec where
  destination : String
  source : String
  type : String
  options : List String
deriving DecidableEq

/-- `specs.LinuxNamespaceType` is a string type in specs-go. -/
abbrev NamespaceType := String

def PIDNamespace : NamespaceType := "pid"
def UTSNamespace : NamespaceType := "uts"
def MountNamespace : NamespaceType := "mount"

structure LinuxNamespace where
  type : NamespaceType
  path : String
deriving DecidableEq

structure LinuxSpec where
  namespaces : List LinuxNamespace
deriving DecidableEq

structure Spec where
  hostname : String
  root : Option RootSpec
  process : Option ProcessSpec
  mounts : List MountSpec
  linux : Option LinuxSpec
deriving DecidableEq

/-! ## Kernel constants (linux/amd64 values of the syscall package) -/

def MS_RDONLY : Nat := 1
def MS_REMOUNT : Nat := 32
def MS_BIND : Nat := 4096
def MS_REC : Nat := 16384
def MNT_DETACH : Nat := 2
def CLONE_NEWNS : Nat := 0x00020000
def CLONE_NEWUTS : Nat := 0x04000000
def CLONE_NEWPID : Nat := 0x20000000

/-- Go `filepath.Join` of a directory and one further component, as the
program uses it (`filepath.Join(bundle, spec.Root.Path)` and
`filepath.Join(rootfs, ".oldroot")`).  The Clean normalisation step is
not modelled: nothing proved here depends on it, paths are treated as
opaque strings. -/
def filepathJoin (dir name : String) : String := dir ++ "/" ++ name

/-! ## namespaceFlags (src/main.go lines 87-100)
`for _, ns := range spec.Linux.Namespaces` with a `switch` on `ns.Type`
accumulating into `flags` with `|=`.  When `spec.Linux` is nil the Go
code dereferences a nil pointer and panics, modelled by `none`. -/

/-- The clone flag one `switch` arm of `namespaceFlags` contributes:
recognized kinds map to their flag, every other kind to nothing. -/
def nsFlag (t : NamespaceType) : Nat :=
  if t = PIDNamespace then CLONE_NEWPID
  else if t = UTSNamespace then CLONE_NEWUTS
  else if t = MountNamespace then CLONE_NEWNS
  else 0

def namespaceFlags (s : Spec) : Option Nat :=
  s.linux.map (fun l => l.namespaces.foldl (fun flags ns => flags ||| nsFlag ns.type) 0)

/-! ## needDelegate (src/main.go lines 233-253)
Reads the `RUNC_DELEGATED` environment variable, resolves `systemd-run`
on the path, and reads `/proc/1/comm` and `/proc/self/cgroup`, both with
the read error discarded (`p1, _ := os.ReadFile(...)`): a failed read
leaves the nil (empty) byte slice. -/

/-- `bytes.HasPrefix` on byte strings (modelled on character lists). -/
def bytesHasPrefix : List Char → List Char → Bool
  | _, [] => true
  | [], _ :: _ => false
  | a :: s, b :: p => a == b && bytesHasPrefix s p

/-- `bytes.Contains` on byte strings (modelled on character lists). -/
def bytesContains : List Char → List Char → Bool
  | [], p => bytesHasPrefix [] p
  | s@(_ :: rest), p => bytesHasPrefix s p || bytesContains rest p

/-- The host facts `needDelegate` inspects.  `runcDelegated` is the
result of `os.Getenv("RUNC_DELEGATED")` (empty when unset);
`systemdRunOnPath` is whether `exec.LookPath("systemd-run")` succeeds;
the two file fields are `none` when the corresponding read fails. -/
structure HostState where
  runcDelegated : String
  systemdRunOnPath : Bool
  p1Comm : Option String
  selfCgroup : Option String

def needDelegate (h : HostState) : Bool :=
  if h.runcDelegated == "1" then false
  else if !h.systemdRunOnPath then false
  else if !(bytesHasPrefix (h.p1Comm.getD "").toList "systemd".toList) then false
  else bytesContains (h.selfCgroup.getD "").toList "/init.scope".toList

/-! ## Outcome of a process: Go code that returns lets `main` finish and the
process exit; `panic(err)` aborts the process through the Go runtime, whose
panic exit status is fixed by the runtime and is never the exit code of a
child process the program ran. -/

inductive Outcome where
  | exited (code : Nat)
  | panicked
deriving DecidableEq

/-! ## run (src/main.go lines 65-85)
Loads the spec, then builds the `child` re-exec command with
`Cloneflags: namespaceFlags(spec)` and runs it.  `namespaceFlags` is
evaluated while the command is being set up, before any child process is
started; with a nil `spec.Linux` it panics there.  The first component
of the result is the clone-flag mask of the child that was started,
`none` when no child was started. -/

structure RunWorld where
  childStartOk : Bool
  childExit : Nat

def run (spec : Spec) (w : RunWorld) : Option Nat × Outcome :=
  match namespaceFlags spec with
  | none => (none, Outcome.panicked)
  | some flags =>
      if w.childStartOk then
        (some flags, if w.childExit = 0 then Outcome.exited 0 else Outcome.panicked)
      else (some flags, Outcome.panicked)

/-! ## reexecInDelegate (src/main.go lines 257-289)
Resolves its own executable, wraps the original arguments in a
`systemd-run --scope` invocation, runs it with streams connected
through, panics when `cmd.Run()` reports an error (start failure or a
non-zero exit of `systemd-run`) and calls `os.Exit(0)` otherwise.  The
first component of the result is the argument vector handed to
`systemd-run`, `none` when the invocation was never built. -/

structure DelegateWorld where
  selfExe : Option String
  startOk : Bool
  scopeExit : Nat

def reexecArgs (pidsMax : Nat) (selfExe : String) (osArgs : List String) : List String :=
  ["--scope",
   "-p", "Delegate=yes",
   "-p", "TasksMax=" ++ toString pidsMax,
   "--setenv=RUNC_DELEGATED=1",
   "--quiet",
   selfExe] ++ osArgs.drop 1

def reexecInDelegate (pidsMax : Nat) (osArgs : List String) (w : DelegateWorld) :
    Option (List String) × Outcome :=
  match w.selfExe with
  | none => (none, Outcome.panicked)
  | some exe =>
      let args := reexecArgs pidsMax exe osArgs
      if w.startOk then
        if w.scopeExit = 0 then (some args, Outcome.exited 0)
        else (some args, Outcome.panicked)
      else (some args, Outcome.panicked)

/-! ## The kernel calls Container Init issues, in program order -/

inductive SysEvent where
  | sethostname (name : String)
  | mount (source target fstype : String) (flags : Nat) (data : String)
  | unmount (target : String) (flags : Nat)
  | pivotRootSyscall (newRoot putOld : String)
  | removeFile (path : String)
  | removeAll (path : String)
  | symlink (oldpath newpath : String)
  | mkdirAll (path : String)
  | setgid (gid : Nat)
  | setuid (uid : Nat)
  | startTarget (argv env : List String) (cwd : String)
deriving DecidableEq

abbrev Trace := List SysEvent

/-- One call of a straight-line block: its event and whether a failure
is fatal (makes the Go code panic).  The only non-fatal call in `child`
is `_ = os.Remove("/dev/ptmx")`, whose error is discarded. -/
structure Call where
  ev : SysEvent
  fatal : Bool
deriving DecidableEq

/-- The world a child run happens in: which calls succeed, and the exit
code of the target command once it has started. -/
structure World where
  ok : SysEvent → Bool
  targetExit : Nat

/-- Run a straight-line block of calls: each call is issued in order; a
failing fatal call ends the block (the Go code panics there), a failing
non-fatal call is ignored.  Returns the trace of issued calls and
whether the block ran to completion. -/
def runCalls (w : World) : List Call → Trace × Bool
  | [] => ([], true)
  | c :: rest =>
      if c.fatal && !(w.ok c.ev) then ([c.ev], false)
      else (c.ev :: (runCalls w rest).1, (runCalls w rest).2)

/-- The hostname step of `child` (src/main.go lines 111-115): applied
only when `spec.Hostname` is non-empty, fatal on failure. -/
def hostCalls (hostname : String) : List Call :=
  if hostname ≠ "" then [{ ev := SysEvent.sethostname hostname, fatal := true }] else []

/-- The conditional read-only block of `child` (src/main.go lines
120-140): executed only when `spec.Root.Readonly` — a recursive bind
mount of rootfs onto itself, then a read-only bind remount. -/
def roCalls (readonly : Bool) (rootfs : String) : List Call :=
  if readonly then
    [{ ev := SysEvent.mount rootfs rootfs "" (MS_BIND ||| MS_REC) "", fatal := true },
     { ev := SysEvent.mount rootfs rootfs "" (MS_BIND ||| MS_REMOUNT ||| MS_RDONLY) "",
       fatal := true }]
  else []

/-- pivotRoot (src/main.go lines 179-202): bind-mounts rootfs onto
itself, remounts it read-only unconditionally, then unmounts
`rootfs/.oldroot` with MNT_DETACH and removes that directory.  The
sequence contains no `syscall.PivotRoot` call (and no chroot or chdir
either); `child` panics when any step reports an error. -/
def pivotRootCalls (rootfs : String) : List Call :=
  [{ ev := SysEvent.mount rootfs rootfs "" (MS_BIND ||| MS_REC) "", fatal := true },
   { ev := SysEvent.mount rootfs rootfs "" (MS_BIND ||| MS_REMOUNT ||| MS_RDONLY) "",
     fatal := true },
   { ev := SysEvent.unmount (filepathJoin rootfs ".oldroot") MNT_DETACH, fatal := true },
   { ev := SysEvent.removeAll (filepathJoin rootfs ".oldroot"), fatal := true }]

/-- The `/dev/ptmx` step of `child` (src/main.go lines 146-149): the
remove discards its error, the symlink is fatal. -/
def ptmxCalls : List Call :=
  [{ ev := SysEvent.removeFile "/dev/ptmx", fatal := false },
   { ev := SysEvent.symlink "pts/ptmx" "/dev/ptmx", fatal := true }]

/-- The whole root-switch block of `child`: the readonly-gated mounts,
the `pivotRoot` helper, and the ptmx symlink recreation. -/
def setupCalls (readonly : Bool) (rootfs : String) : List Call :=
  roCalls readonly rootfs ++ pivotRootCalls rootfs ++ ptmxCalls

/-- The privilege drop of `child` (src/main.go lines 158-164):
`syscall.Setgid(gid)` then `syscall.Setuid(uid)`, each fatal. -/
def idCalls (proc : ProcessSpec) : List Call :=
  [{ ev := SysEvent.setgid proc.user.gid, fatal := true },
   { ev := SysEvent.setuid proc.user.uid, fatal := true }]

/-- mountAll (src/main.go lines 204-223): for each entry of
`spec.Mounts` in order, `os.MkdirAll(destination)` then a mount of
source/type at destination with the comma-joined option string, fatal
on either failure.  The function is defined in the source but has no
call site: neither `child` nor `run` nor `main` invokes it. -/
def mountAllCalls : List MountSpec → List Call
  | [] => []
  | m :: rest =>
      { ev := SysEvent.mkdirAll m.destination, fatal := true } ::
      { ev := SysEvent.mount m.source m.destination m.type 0
          (String.intercalate "," m.options), fatal := true } ::
      mountAllCalls rest

/-- child (src/main.go lines 102-177) run on a loaded spec: hostname,
the root-switch block, then — `proc := spec.Process` being dereferenced
and `proc.Args[0]` indexed while the exec.Command is built — the
privilege drop and the target command, whose non-nil `cmd.Run()` error
(start failure or non-zero exit) makes `child` panic.  The background
reaper goroutine (lines 167-172) issues no call of its own and is not
part of the trace.  A nil `spec.Root`, a nil `spec.Process` or an empty
`Args` panics at the corresponding dereference. -/
def childRun (bundle : String) (spec : Spec) (w : World) : Trace × Outcome :=
  let r0 := runCalls w (hostCalls spec.hostname)
  if !r0.2 then (r0.1, Outcome.panicked)
  else
    match spec.root with
    | none => (r0.1, Outcome.panicked)
    | some root =>
        let rootfs := filepathJoin bundle root.path
        let r1 := runCalls w (setupCalls root.readonly rootfs)
        if !r1.2 then (r0.1 ++ r1.1, Outcome.panicked)
        else
          match spec.process with
          | none => (r0.1 ++ r1.1, Outcome.panicked)
          | some proc =>
              if proc.args.isEmpty then (r0.1 ++ r1.1, Outcome.panicked)
              else
                let r2 := runCalls w (idCalls proc)
                if !r2.2 then (r0.1 ++ r1.1 ++ r2.1, Outcome.panicked)
                else
                  let startEv := SysEvent.startTarget proc.args proc.env proc.cwd
                  let tr := r0.1 ++ r1.1 ++ r2.1 ++ [startEv]
                  if !(w.ok startEv) then (tr, Outcome.panicked)
                  else if w.targetExit = 0 then (tr, Outcome.exited 0)
                  else (tr, Outcome.panicked)

/-! ## Concrete inputs used by witnesses and counterexamples -/

def specPidNet : Spec :=
  { hostname := "", root := none, process := none, mounts := [],
    linux := some { namespaces := [{ type := PIDNamespace, path := "" },
                                   { type := "network", path := "" }] } }

def wRunOk : RunWorld := { childStartOk := true, childExit := 0 }

def specNilLinux : Spec :=
  { hostname := "box", root := none, process := none, mounts := [], linux := none }

def wScope5 : DelegateWorld :=
  { selfExe := some "/proc/self/exe", startOk := true, scopeExit := 5 }

def procSh : ProcessSpec :=
  { args := ["/bin/sh"], env := [], cwd := "/", user := { uid := 0, gid := 0 } }

/-- A spec with a writable root, a process and one auxiliary mount. -/
def specRW : Spec :=
  { hostname := "box", root := some { path := "rootfs", readonly := false },
    process := some procSh,
    mounts := [{ destination := "/proc", source := "proc", type := "proc", options := [] }],
    linux := some { namespaces := [] } }

def wAllOk : World := { ok := fun _ => true, targetExit := 0 }

def wExit3 : World := { ok := fun _ => true, targetExit := 3 }

def wGidFail : World :=
  { ok := fun ev => match ev with | SysEvent.setgid _ => false | _ => true,
    targetExit := 0 }

/-! ## Theorems about the delegation controller and the supervisor -/

/-- Claim C4: `needDelegate` returns true exactly when the delegation
marker is not set to "1", `systemd-run` resolves on the path, the
command name of PID 1 starts with "systemd", and the control-group
record of the current process contains "/init.scope"; and whenever the
marker is set to "1" it returns false regardless of the other host
facts. -/
theorem needDelegate_iff_conditions (h : HostState) :
    (needDelegate h = true ↔
      (h.runcDelegated ≠ "1" ∧ h.systemdRunOnPath = true ∧
        bytesHasPrefix (h.p1Comm.getD "").toList "systemd".toList = true ∧
        bytesContains (h.selfCgroup.getD "").toList "/init.scope".toList = true)) ∧
    (h.runcDelegated = "1" → needDelegate h = false) := by
  constructor
  · unfold needDelegate
    split_ifs with h1 h2 h3 <;> simp_all
  · intro hm
    simp [needDelegate, hm]

/-- Claim C10: `needDelegate` discards read errors on `/proc/1/comm` and
`/proc/self/cgroup` (an unreadable file behaves exactly like an empty
one), and with either file unreadable it decides that no delegation is
needed. -/
theorem needDelegate_read_errors_are_empty (h : HostState) :
    needDelegate { h with p1Comm := none } = needDelegate { h with p1Comm := some "" } ∧
    needDelegate { h with selfCgroup := none } =
      needDelegate { h with selfCgroup := some "" } ∧
    needDelegate { h with p1Comm := none } = false ∧
    needDelegate { h with selfCgroup := none } = false := by
  refine ⟨rfl, rfl, ?_, ?_⟩
  · unfold needDelegate
    split_ifs with h1 h2 h3
    · rfl
    · rfl
    · rfl
    · exfalso
      apply h3
      show (!bytesHasPrefix "".toList "systemd".toList) = true
      decide
  · unfold needDelegate
    split_ifs with h1 h2 h3
    · rfl
    · rfl
    · rfl
    · show bytesContains "".toList "/init.scope".toList = false
      decide

/-- Helper: case analysis on a Bool, false case first. -/
theorem boolCases (b : Bool) : b = false ∨ b = true :=
  Or.symm (Bool.eq_false_or_eq_true b)

/-- Helper: folding bitwise-or from an arbitrary accumulator. -/
theorem foldl_lor_shift (f : LinuxNamespace → Nat) :
    ∀ (nss : List LinuxNamespace) (acc : Nat),
      nss.foldl (fun fl ns => fl ||| f ns) acc =
        acc ||| nss.foldl (fun fl ns => fl ||| f ns) 0 := by
  intro nss
  induction nss with
  | nil => intro acc; simp
  | cons n rest ih =>
      intro acc
      simp only [List.foldl_cons]
      rw [ih (acc ||| f n), ih (0 ||| f n), Nat.zero_or, Nat.lor_assoc]

/-- Helper: the fold of `namespaceFlags` is the union of the per-kind
clone flags over exactly the kinds present in the list. -/
theorem foldl_nsFlag_union (nss : List LinuxNamespace) :
    nss.foldl (fun fl ns => fl ||| nsFlag ns.type) 0 =
      (if nss.any (fun ns => ns.type == PIDNamespace) then CLONE_NEWPID else 0) |||
      (if nss.any (fun ns => ns.type == UTSNamespace) then CLONE_NEWUTS else 0) |||
      (if nss.any (fun ns => ns.type == MountNamespace) then CLONE_NEWNS else 0) := by
  induction nss with
  | nil => simp
  | cons n rest ih =>
      simp only [List.foldl_cons, List.any_cons]
      rw [foldl_lor_shift (fun ns => nsFlag ns.type) rest (0 ||| nsFlag n.type), ih,
        Nat.zero_or]
      by_cases hp : n.type = PIDNamespace
      · rcases boolCases (rest.any (fun ns => ns.type == PIDNamespace)) with hA | hA <;>
          rcases boolCases (rest.any (fun ns => ns.type == UTSNamespace)) with hB | hB <;>
          rcases boolCases (rest.any (fun ns => ns.type == MountNamespace)) with hC | hC <;>
          simp only [hp, hA, hB, hC] <;> decide
      · by_cases hu : n.type = UTSNamespace
        · rcases boolCases (rest.any (fun ns => ns.type == PIDNamespace)) with hA | hA <;>
            rcases boolCases (rest.any (fun ns => ns.type == UTSNamespace)) with hB | hB <;>
            rcases boolCases (rest.any (fun ns => ns.type == MountNamespace)) with hC | hC <;>
            simp only [hu, hA, hB, hC] <;> decide
        · by_cases hmnt : n.type = MountNamespace
          · rcases boolCases (rest.any (fun ns => ns.type == PIDNamespace)) with hA | hA <;>
              rcases boolCases (rest.any (fun ns => ns.type == UTSNamespace)) with hB | hB <;>
              rcases boolCases (rest.any (fun ns => ns.type == MountNamespace)) with hC | hC <;>
              simp only [hmnt, hA, hB, hC] <;> decide
          · have hp2 : (n.type == PIDNamespace) = false := beq_eq_false_iff_ne.mpr hp
            have hu2 : (n.type == UTSNamespace) = false := beq_eq_false_iff_ne.mpr hu
            have hm2 : (n.type == MountNamespace) = false := beq_eq_false_iff_ne.mpr hmnt
            rcases boolCases (rest.any (fun ns => ns.type == PIDNamespace)) with hA | hA <;>
              rcases boolCases (rest.any (fun ns => ns.type == UTSNamespace)) with hB | hB <;>
              rcases boolCases (rest.any (fun ns => ns.type == MountNamespace)) with hC | hC <;>
              simp only [nsFlag, if_neg hp, if_neg hu, if_neg hmnt, hp2, hu2, hm2, hA, hB, hC] <;>
              decide

/-- Claim C7: for a spec whose Linux section is present, the
namespace-flag bitmask the supervisor computes is exactly the bitwise
union of the per-kind clone flags over the kinds present in the
namespace list; unrecognized kinds contribute nothing and the
computation never fails. -/
theorem namespaceFlags_union (s : Spec) (l : LinuxSpec) (hl : s.linux = some l) :
    namespaceFlags s = some (
      (if l.namespaces.any (fun ns => ns.type == PIDNamespace) then CLONE_NEWPID else 0) |||
      (if l.namespaces.any (fun ns => ns.type == UTSNamespace) then CLONE_NEWUTS else 0) |||
      (if l.namespaces.any (fun ns => ns.type == MountNamespace) then CLONE_NEWNS else 0)) := by
  rw [namespaceFlags, hl]
  exact congrArg some (foldl_nsFlag_union l.namespaces)

theorem namespaceFlags_union_witness :
    namespaceFlags specPidNet = some CLONE_NEWPID :=
  (namespaceFlags_union specPidNet
    { namespaces := [{ type := PIDNamespace, path := "" },
                     { type := "network", path := "" }] } rfl).trans (by decide)

/-- Claim C9: with a nil Linux section, the supervise path panics while
computing the namespace flags and never starts the child: the result
records no started child (`none` in the first component) and a panic,
not a launch with an empty flag set. -/
theorem run_nilLinux_panics (s : Spec) (w : RunWorld) (h : s.linux = none) :
    run s w = (none, Outcome.panicked) := by
  unfold run namespaceFlags
  rw [h]
  rfl

theorem run_nilLinux_panics_witness :
    run specNilLinux wRunOk = (none, Outcome.panicked) :=
  run_nilLinux_panics specNilLinux wRunOk rfl

/-- Claim C6 counterexample: a scope-manager invocation that itself
exits with code 5 does not make the original process exit with 5 — the
code panics on the non-zero exit instead of propagating it. -/
theorem reexec_exit5_not_propagated :
    (reexecInDelegate 20 ["mini-containerd", "run", "/b"] wScope5).2 ≠ Outcome.exited 5 := by
  decide

/-- Claim C6 (amended): when the scope-manager invocation is started
successfully, the original process exits 0 exactly when the
scope-manager invocation exits 0; a non-zero scope-manager exit makes
the original process panic (it aborts with the runtime panic status
instead of propagating the code). -/
theorem reexec_exit_behavior (pidsMax : Nat) (osArgs : List String) (w : DelegateWorld)
    (exe : String) (hexe : w.selfExe = some exe) (hstart : w.startOk = true) :
    ((reexecInDelegate pidsMax osArgs w).2 = Outcome.exited 0 ↔ w.scopeExit = 0) ∧
    (w.scopeExit ≠ 0 → (reexecInDelegate pidsMax osArgs w).2 = Outcome.panicked) := by
  simp only [reexecInDelegate, hexe, hstart, if_true]
  split_ifs with h0 <;> simp_all

theorem reexec_exit_behavior_witness :
    ((reexecInDelegate 20 ["mini-containerd", "run", "/b"] wScope5).2 = Outcome.exited 0 ↔
      wScope5.scopeExit = 0) ∧
    (wScope5.scopeExit ≠ 0 →
      (reexecInDelegate 20 ["mini-containerd", "run", "/b"] wScope5).2 = Outcome.panicked) :=
  reexec_exit_behavior 20 ["mini-containerd", "run", "/b"] wScope5 "/proc/self/exe" rfl rfl

/-! ## Properties of straight-line call blocks -/

theorem runCalls_mem (w : World) (ev : SysEvent) :
    ∀ cs : List Call, ev ∈ (runCalls w cs).1 → ∃ c ∈ cs, c.ev = ev := by
  intro cs
  induction cs with
  | nil => intro h; simp [runCalls] at h
  | cons c rest ih =>
      intro h
      simp only [runCalls] at h
      split at h
      · simp only [List.mem_singleton] at h
        exact ⟨c, List.mem_cons_self c rest, h.symm⟩
      · simp only [List.mem_cons] at h
        rcases h with h | h
        · exact ⟨c, List.mem_cons_self c rest, h.symm⟩
        · obtain ⟨d, hd, he⟩ := ih h
          exact ⟨d, List.mem_cons_of_mem c hd, he⟩

theorem runCalls_complete (w : World) :
    ∀ cs : List Call, (runCalls w cs).2 = true →
      (runCalls w cs).1 = cs.map (fun c => c.ev) := by
  intro cs
  induction cs with
  | nil => intro _; rfl
  | cons c rest ih =>
      intro h
      simp only [runCalls] at h ⊢
      split at h
      · simp at h
      · next hc =>
          rw [if_neg hc]
          exact congrArg (List.cons c.ev) (ih h)

theorem runCalls_allOk (w : World) :
    ∀ cs : List Call, (∀ c ∈ cs, w.ok c.ev = true) → (runCalls w cs).2 = true := by
  intro cs
  induction cs with
  | nil => intro _; rfl
  | cons c rest ih =>
      intro h
      have hc : w.ok c.ev = true := h c (List.mem_cons_self c rest)
      simp only [runCalls, hc]
      simp only [Bool.not_true, Bool.and_false, Bool.false_eq_true, if_false]
      exact ih (fun d hd => h d (List.mem_cons_of_mem c hd))

theorem hostCalls_events (hn : String) :
    ∀ c ∈ hostCalls hn, c.ev = SysEvent.sethostname hn := by
  intro c hc
  unfold hostCalls at hc
  split at hc
  · simp only [List.mem_singleton] at hc
    rw [hc]
  · simp at hc

theorem setupCalls_events (ro : Bool) (rootfs : String) :
    ∀ c ∈ setupCalls ro rootfs,
      c.ev = SysEvent.mount rootfs rootfs "" (MS_BIND ||| MS_REC) "" ∨
      c.ev = SysEvent.mount rootfs rootfs "" (MS_BIND ||| MS_REMOUNT ||| MS_RDONLY) "" ∨
      c.ev = SysEvent.unmount (filepathJoin rootfs ".oldroot") MNT_DETACH ∨
      c.ev = SysEvent.removeAll (filepathJoin rootfs ".oldroot") ∨
      c.ev = SysEvent.removeFile "/dev/ptmx" ∨
      c.ev = SysEvent.symlink "pts/ptmx" "/dev/ptmx" := by
  intro c hc
  unfold setupCalls roCalls pivotRootCalls ptmxCalls at hc
  cases ro
  · simp only [Bool.false_eq_true, if_false, List.nil_append, List.mem_append,
      List.mem_cons, List.mem_singleton, List.not_mem_nil, or_false] at hc
    rcases hc with (rfl | rfl | rfl | rfl) | (rfl | rfl) <;> simp
  · simp only [if_true, List.mem_append, List.mem_cons, List.mem_singleton,
      List.not_mem_nil, or_false] at hc
    rcases hc with ((rfl | rfl) | rfl | rfl | rfl | rfl) | (rfl | rfl) <;> simp

theorem idCalls_events (proc : ProcessSpec) :
    ∀ c ∈ idCalls proc,
      c.ev = SysEvent.setgid proc.user.gid ∨ c.ev = SysEvent.setuid proc.user.uid := by
  intro c hc
  unfold idCalls at hc
  simp only [List.mem_cons, List.mem_singleton, List.not_mem_nil, or_false] at hc
  rcases hc with rfl | rfl
  · exact Or.inl rfl
  · exact Or.inr rfl

theorem runCalls_idCalls_snd (w : World) (proc : ProcessSpec) :
    (runCalls w (idCalls proc)).2 =
      (w.ok (SysEvent.setgid proc.user.gid) && w.ok (SysEvent.setuid proc.user.uid)) := by
  rcases boolCases (w.ok (SysEvent.setgid proc.user.gid)) with hg | hg <;>
    rcases boolCases (w.ok (SysEvent.setuid proc.user.uid)) with hu | hu <;>
    simp [runCalls, idCalls, hg, hu]

/-! ## Branch equations of childRun -/

theorem childRun_host_fail (bundle : String) (spec : Spec) (w : World)
    (h0 : (runCalls w (hostCalls spec.hostname)).2 = false) :
    childRun bundle spec w =
      ((runCalls w (hostCalls spec.hostname)).1, Outcome.panicked) := by
  simp [childRun, h0]

theorem childRun_root_nil (bundle : String) (spec : Spec) (w : World)
    (h0 : (runCalls w (hostCalls spec.hostname)).2 = true) (hr : spec.root = none) :
    childRun bundle spec w =
      ((runCalls w (hostCalls spec.hostname)).1, Outcome.panicked) := by
  simp [childRun, h0, hr]

theorem childRun_setup_fail (bundle : String) (spec : Spec) (w : World) (root : RootSpec)
    (h0 : (runCalls w (hostCalls spec.hostname)).2 = true) (hr : spec.root = some root)
    (h1 : (runCalls w (setupCalls root.readonly (filepathJoin bundle root.path))).2 = false) :
    childRun bundle spec w =
      ((runCalls w (hostCalls spec.hostname)).1 ++
        (runCalls w (setupCalls root.readonly (filepathJoin bundle root.path))).1,
       Outcome.panicked) := by
  simp [childRun, h0, hr, h1]

theorem childRun_proc_nil (bundle : String) (spec : Spec) (w : World) (root : RootSpec)
    (h0 : (runCalls w (hostCalls spec.hostname)).2 = true) (hr : spec.root = some root)
    (h1 : (runCalls w (setupCalls root.readonly (filepathJoin bundle root.path))).2 = true)
    (hp : spec.process = none) :
    childRun bundle spec w =
      ((runCalls w (hostCalls spec.hostname)).1 ++
        (runCalls w (setupCalls root.readonly (filepathJoin bundle root.path))).1,
       Outcome.panicked) := by
  simp [childRun, h0, hr, h1, hp]

theorem childRun_args_empty (bundle : String) (spec : Spec) (w : World) (root : RootSpec)
    (proc : ProcessSpec)
    (h0 : (runCalls w (hostCalls spec.hostname)).2 = true) (hr : spec.root = some root)
    (h1 : (runCalls w (setupCalls root.readonly (filepathJoin bundle root.path))).2 = true)
    (hp : spec.process = some proc) (ha : proc.args.isEmpty = true) :
    childRun bundle spec w =
      ((runCalls w (hostCalls spec.hostname)).1 ++
        (runCalls w (setupCalls root.readonly (filepathJoin bundle root.path))).1,
       Outcome.panicked) := by
  simp [childRun, h0, hr, h1, hp, ha]

theorem childRun_id_fail (bundle : String) (spec : Spec) (w : World) (root : RootSpec)
    (proc : ProcessSpec)
    (h0 : (runCalls w (hostCalls spec.hostname)).2 = true) (hr : spec.root = some root)
    (h1 : (runCalls w (setupCalls root.readonly (filepathJoin bundle root.path))).2 = true)
    (hp : spec.process = some proc) (ha : proc.args.isEmpty = false)
    (h2 : (runCalls w (idCalls proc)).2 = false) :
    childRun bundle spec w =
      ((runCalls w (hostCalls spec.hostname)).1 ++
        (runCalls w (setupCalls root.readonly (filepathJoin bundle root.path))).1 ++
        (runCalls w (idCalls proc)).1,
       Outcome.panicked) := by
  simp [childRun, h0, hr, h1, hp, ha, h2]

theorem childRun_start (bundle : String) (spec : Spec) (w : World) (root : RootSpec)
    (proc : ProcessSpec)
    (h0 : (runCalls w (hostCalls spec.hostname)).2 = true) (hr : spec.root = some root)
    (h1 : (runCalls w (setupCalls root.readonly (filepathJoin bundle root.path))).2 = true)
    (hp : spec.process = some proc) (ha : proc.args.isEmpty = false)
    (h2 : (runCalls w (idCalls proc)).2 = true) :
    childRun bundle spec w =
      (if !(w.ok (SysEvent.startTarget proc.args proc.env proc.cwd)) then
        ((runCalls w (hostCalls spec.hostname)).1 ++
          (runCalls w (setupCalls root.readonly (filepathJoin bundle root.path))).1 ++
          (runCalls w (idCalls proc)).1 ++
          [SysEvent.startTarget proc.args proc.env proc.cwd], Outcome.panicked)
      else if w.targetExit = 0 then
        ((runCalls w (hostCalls spec.hostname)).1 ++
          (runCalls w (setupCalls root.readonly (filepathJoin bundle root.path))).1 ++
          (runCalls w (idCalls proc)).1 ++
          [SysEvent.startTarget proc.args proc.env proc.cwd], Outcome.exited 0)
      else
        ((runCalls w (hostCalls spec.hostname)).1 ++
          (runCalls w (setupCalls root.readonly (filepathJoin bundle root.path))).1 ++
          (runCalls w (idCalls proc)).1 ++
          [SysEvent.startTarget proc.args proc.env proc.cwd], Outcome.panicked)) := by
  simp [childRun, h0, hr, h1, hp, ha, h2]

/-- The first component of `childRun` in the branches that reach the
target command: the full trace, whatever the start result and exit. -/
theorem childRun_start_fst (bundle : String) (spec : Spec) (w : World) (root : RootSpec)
    (proc : ProcessSpec)
    (h0 : (runCalls w (hostCalls spec.hostname)).2 = true) (hr : spec.root = some root)
    (h1 : (runCalls w (setupCalls root.readonly (filepathJoin bundle root.path))).2 = true)
    (hp : spec.process = some proc) (ha : proc.args.isEmpty = false)
    (h2 : (runCalls w (idCalls proc)).2 = true) :
    (childRun bundle spec w).1 =
      (runCalls w (hostCalls spec.hostname)).1 ++
        (runCalls w (setupCalls root.readonly (filepathJoin bundle root.path))).1 ++
        (runCalls w (idCalls proc)).1 ++
        [SysEvent.startTarget proc.args proc.env proc.cwd] := by
  rw [childRun_start bundle spec w root proc h0 hr h1 hp ha h2]
  split_ifs <;> rfl

/-- Every event of a child trace comes from the hostname step, the
root-switch block, the privilege drop, or is the start of the target
command. -/
theorem childRun_trace_shape (bundle : String) (spec : Spec) (w : World) (ev : SysEvent)
    (h : ev ∈ (childRun bundle spec w).1) :
    (∃ c ∈ hostCalls spec.hostname, c.ev = ev) ∨
    (∃ root : RootSpec, spec.root = some root ∧
      ∃ c ∈ setupCalls root.readonly (filepathJoin bundle root.path), c.ev = ev) ∨
    (∃ proc : ProcessSpec, spec.process = some proc ∧ ∃ c ∈ idCalls proc, c.ev = ev) ∨
    (∃ proc : ProcessSpec, spec.process = some proc ∧
      ev = SysEvent.startTarget proc.args proc.env proc.cwd) := by
  rcases boolCases (runCalls w (hostCalls spec.hostname)).2 with h0 | h0
  · rw [childRun_host_fail bundle spec w h0] at h
    exact Or.inl (runCalls_mem w ev _ h)
  · cases hr : spec.root with
    | none =>
        rw [childRun_root_nil bundle spec w h0 hr] at h
        exact Or.inl (runCalls_mem w ev _ h)
    | some root =>
        rcases boolCases
            (runCalls w (setupCalls root.readonly (filepathJoin bundle root.path))).2 with
          h1 | h1
        · rw [childRun_setup_fail bundle spec w root h0 hr h1] at h
          rcases List.mem_append.mp h with h | h
          · exact Or.inl (runCalls_mem w ev _ h)
          · exact Or.inr (Or.inl ⟨root, rfl, runCalls_mem w ev _ h⟩)
        · cases hp : spec.process with
          | none =>
              rw [childRun_proc_nil bundle spec w root h0 hr h1 hp] at h
              rcases List.mem_append.mp h with h | h
              · exact Or.inl (runCalls_mem w ev _ h)
              · exact Or.inr (Or.inl ⟨root, rfl, runCalls_mem w ev _ h⟩)
          | some proc =>
              rcases boolCases proc.args.isEmpty with ha | ha
              · rcases boolCases (runCalls w (idCalls proc)).2 with h2 | h2
                · rw [childRun_id_fail bundle spec w root proc h0 hr h1 hp ha h2] at h
                  rcases List.mem_append.mp h with h | h
                  · rcases List.mem_append.mp h with h | h
                    · exact Or.inl (runCalls_mem w ev _ h)
                    · exact Or.inr (Or.inl ⟨root, rfl, runCalls_mem w ev _ h⟩)
                  · exact Or.inr (Or.inr (Or.inl ⟨proc, rfl, runCalls_mem w ev _ h⟩))
                · rw [childRun_start_fst bundle spec w root proc h0 hr h1 hp ha h2] at h
                  rcases List.mem_append.mp h with h | h
                  · rcases List.mem_append.mp h with h | h
                    · rcases List.mem_append.mp h with h | h
                      · exact Or.inl (runCalls_mem w ev _ h)
                      · exact Or.inr (Or.inl ⟨root, rfl, runCalls_mem w ev _ h⟩)
                    · exact Or.inr (Or.inr (Or.inl ⟨proc, rfl, runCalls_mem w ev _ h⟩))
                  · simp only [List.mem_singleton] at h
                    exact Or.inr (Or.inr (Or.inr ⟨proc, rfl, h⟩))
              · rw [childRun_args_empty bundle spec w root proc h0 hr h1 hp ha] at h
                rcases List.mem_append.mp h with h | h
                · exact Or.inl (runCalls_mem w ev _ h)
                · exact Or.inr (Or.inl ⟨root, rfl, runCalls_mem w ev _ h⟩)

theorem hostCalls_no_start (hn : String) (args env : List String) (cwd : String)
    (c : Call) (hc : c ∈ hostCalls hn) : c.ev ≠ SysEvent.startTarget args env cwd := by
  rw [hostCalls_events hn c hc]
  exact fun he => SysEvent.noConfusion he

theorem setupCalls_no_start (ro : Bool) (rootfs : String) (args env : List String)
    (cwd : String) (c : Call) (hc : c ∈ setupCalls ro rootfs) :
    c.ev ≠ SysEvent.startTarget args env cwd := by
  rcases setupCalls_events ro rootfs c hc with h | h | h | h | h | h <;> rw [h] <;>
    exact fun he => SysEvent.noConfusion he

theorem idCalls_no_start (proc : ProcessSpec) (args env : List String) (cwd : String)
    (c : Call) (hc : c ∈ idCalls proc) : c.ev ≠ SysEvent.startTarget args env cwd := by
  rcases idCalls_events proc c hc with h | h <;> rw [h] <;>
    exact fun he => SysEvent.noConfusion he

/-! ## Theorems about Container Init -/

/-- Claim C1 (code evidence): the trace of `child` never contains a
pivot_root syscall, for any bundle, spec and world: the `pivotRoot`
helper of the source only bind-mounts rootfs onto itself, remounts it
read-only, and unmounts and removes `rootfs/.oldroot`; the process root
is never switched to rootfs. -/
theorem child_never_pivots (bundle : String) (spec : Spec) (w : World) :
    ∀ newRoot putOld : String,
      SysEvent.pivotRootSyscall newRoot putOld ∉ (childRun bundle spec w).1 := by
  intro nr po h
  rcases childRun_trace_shape bundle spec w _ h with
    ⟨c, hc, he⟩ | ⟨root, _, c, hc, he⟩ | ⟨proc, _, c, hc, he⟩ | ⟨proc, _, he⟩
  · rw [hostCalls_events spec.hostname c hc] at he
    exact SysEvent.noConfusion he
  · rcases setupCalls_events root.readonly (filepathJoin bundle root.path) c hc with
      h6 | h6 | h6 | h6 | h6 | h6 <;> rw [h6] at he <;> exact SysEvent.noConfusion he
  · rcases idCalls_events proc c hc with h6 | h6 <;> rw [h6] at he <;>
      exact SysEvent.noConfusion he
  · exact SysEvent.noConfusion he

/-- Claim C2 (code evidence): for the concrete spec `specRW`, whose
`root.readonly` is false, and a world where every call succeeds, the
child trace still contains the MS_RDONLY bind remount of rootfs — the
unconditional remount inside `pivotRoot` — so the read-only remount is
not gated on `spec.root.readonly`. -/
theorem child_remounts_readonly_even_when_writable :
    SysEvent.mount (filepathJoin "/b" "rootfs") (filepathJoin "/b" "rootfs") ""
      (MS_BIND ||| MS_REMOUNT ||| MS_RDONLY) "" ∈ (childRun "/b" specRW wAllOk).1 := by
  decide

/-- Claim C3 (code evidence): `child` never reads `spec.mounts` — its
result is identical for any two mount lists — and no MkdirAll call (the
first step `mountAll` would take for each mount destination) ever
appears in its trace: `mountAll` is defined but never invoked, so the
auxiliary mounts are never performed. -/
theorem child_ignores_mounts (bundle : String) (spec : Spec) (w : World)
    (ms : List MountSpec) :
    childRun bundle { spec with mounts := ms } w = childRun bundle spec w ∧
    ∀ p : String, SysEvent.mkdirAll p ∉ (childRun bundle spec w).1 := by
  constructor
  · rfl
  · intro p h
    rcases childRun_trace_shape bundle spec w _ h with
      ⟨c, hc, he⟩ | ⟨root, _, c, hc, he⟩ | ⟨proc, _, c, hc, he⟩ | ⟨proc, _, he⟩
    · rw [hostCalls_events spec.hostname c hc] at he
      exact SysEvent.noConfusion he
    · rcases setupCalls_events root.readonly (filepathJoin bundle root.path) c hc with
        h6 | h6 | h6 | h6 | h6 | h6 <;> rw [h6] at he <;> exact SysEvent.noConfusion he
    · rcases idCalls_events proc c hc with h6 | h6 <;> rw [h6] at he <;>
        exact SysEvent.noConfusion he
    · exact SysEvent.noConfusion he

/-- Claim C5 counterexample: a target command exiting with status 3
does not make `child` exit with status 3 — the non-nil `cmd.Run()`
error is passed to `panic`, so the process aborts instead of exiting
with the target's code. -/
theorem child_exit3_not_propagated :
    (childRun "/b" specRW wExit3).2 ≠ Outcome.exited 3 := by
  decide

/-- Claim C5 (amended): when every kernel call succeeds and the target
command exits non-zero, `child` panics: the Go runtime then aborts the
process with its fixed panic exit status, which is not the target's
exit code — only a zero exit is reproduced (as `child`'s own success
exit 0). -/
theorem child_nonzero_target_exit_panics (bundle : String) (spec : Spec) (w : World)
    (root : RootSpec) (proc : ProcessSpec)
    (hok : ∀ ev : SysEvent, w.ok ev = true)
    (hr : spec.root = some root) (hp : spec.process = some proc)
    (ha : proc.args.isEmpty = false) (hx : w.targetExit ≠ 0) :
    (childRun bundle spec w).2 = Outcome.panicked := by
  have h0 : (runCalls w (hostCalls spec.hostname)).2 = true :=
    runCalls_allOk w _ (fun c _ => hok c.ev)
  have h1 : (runCalls w (setupCalls root.readonly (filepathJoin bundle root.path))).2 = true :=
    runCalls_allOk w _ (fun c _ => hok c.ev)
  have h2 : (runCalls w (idCalls proc)).2 = true :=
    runCalls_allOk w _ (fun c _ => hok c.ev)
  rw [childRun_start bundle spec w root proc h0 hr h1 hp ha h2]
  simp [hok, hx]

theorem child_nonzero_target_exit_panics_witness :
    (childRun "/b" specRW wExit3).2 = Outcome.panicked :=
  child_nonzero_target_exit_panics "/b" specRW wExit3
    { path := "rootfs", readonly := false } procSh
    (fun _ => rfl) rfl rfl rfl (by decide)

/-- Claim C8: whenever the target command is started by `child`, the
trace ends with Setgid of the spec gid, immediately followed by Setuid
of the spec uid, immediately followed by the target start — the group
is set strictly before the user, both strictly before the exec; and
when either privilege call fails the run panics with the target never
started. -/
theorem child_gid_before_uid_before_exec (bundle : String) (spec : Spec) (w : World) :
    (∀ (args env : List String) (cwd : String),
      SysEvent.startTarget args env cwd ∈ (childRun bundle spec w).1 →
      ∃ (pre : Trace) (proc : ProcessSpec), spec.process = some proc ∧
        (childRun bundle spec w).1 =
          pre ++ [SysEvent.setgid proc.user.gid, SysEvent.setuid proc.user.uid,
                  SysEvent.startTarget args env cwd]) ∧
    (∀ proc : ProcessSpec, spec.process = some proc →
      (w.ok (SysEvent.setgid proc.user.gid) = false ∨
        w.ok (SysEvent.setuid proc.user.uid) = false) →
      (childRun bundle spec w).2 = Outcome.panicked ∧
        ∀ (args env : List String) (cwd : String),
          SysEvent.startTarget args env cwd ∉ (childRun bundle spec w).1) := by
  constructor
  · intro args env cwd hmem
    rcases boolCases (runCalls w (hostCalls spec.hostname)).2 with h0 | h0
    · rw [childRun_host_fail bundle spec w h0] at hmem
      obtain ⟨c, hc, he⟩ := runCalls_mem w _ _ hmem
      exact absurd he (hostCalls_no_start _ _ _ _ c hc)
    · cases hr : spec.root with
      | none =>
          rw [childRun_root_nil bundle spec w h0 hr] at hmem
          obtain ⟨c, hc, he⟩ := runCalls_mem w _ _ hmem
          exact absurd he (hostCalls_no_start _ _ _ _ c hc)
      | some root =>
          rcases boolCases
              (runCalls w (setupCalls root.readonly (filepathJoin bundle root.path))).2 with
            h1 | h1
          · rw [childRun_setup_fail bundle spec w root h0 hr h1] at hmem
            rcases List.mem_append.mp hmem with hmem | hmem
            · obtain ⟨c, hc, he⟩ := runCalls_mem w _ _ hmem
              exact absurd he (hostCalls_no_start _ _ _ _ c hc)
            · obtain ⟨c, hc, he⟩ := runCalls_mem w _ _ hmem
              exact absurd he (setupCalls_no_start _ _ _ _ _ c hc)
          · cases hp : spec.process with
            | none =>
                rw [childRun_proc_nil bundle spec w root h0 hr h1 hp] at hmem
                rcases List.mem_append.mp hmem with hmem | hmem
                · obtain ⟨c, hc, he⟩ := runCalls_mem w _ _ hmem
                  exact absurd he (hostCalls_no_start _ _ _ _ c hc)
                · obtain ⟨c, hc, he⟩ := runCalls_mem w _ _ hmem
                  exact absurd he (setupCalls_no_start _ _ _ _ _ c hc)
            | some proc =>
                rcases boolCases proc.args.isEmpty with ha | ha
                · rcases boolCases (runCalls w (idCalls proc)).2 with h2 | h2
                  · rw [childRun_id_fail bundle spec w root proc h0 hr h1 hp ha h2] at hmem
                    rcases List.mem_append.mp hmem with hmem | hmem
                    · rcases List.mem_append.mp hmem with hmem | hmem
                      · obtain ⟨c, hc, he⟩ := runCalls_mem w _ _ hmem
                        exact absurd he (hostCalls_no_start _ _ _ _ c hc)
                      · obtain ⟨c, hc, he⟩ := runCalls_mem w _ _ hmem
                        exact absurd he (setupCalls_no_start _ _ _ _ _ c hc)
                    · obtain ⟨c, hc, he⟩ := runCalls_mem w _ _ hmem
                      exact absurd he (idCalls_no_start _ _ _ _ c hc)
                  · have hfst := childRun_start_fst bundle spec w root proc h0 hr h1 hp ha h2
                    rw [hfst] at hmem
                    rcases List.mem_append.mp hmem with hmem | hmem
                    · rcases List.mem_append.mp hmem with hmem | hmem
                      · rcases List.mem_append.mp hmem with hmem | hmem
                        · obtain ⟨c, hc, he⟩ := runCalls_mem w _ _ hmem
                          exact absurd he (hostCalls_no_start _ _ _ _ c hc)
                        · obtain ⟨c, hc, he⟩ := runCalls_mem w _ _ hmem
                          exact absurd he (setupCalls_no_start _ _ _ _ _ c hc)
                      · obtain ⟨c, hc, he⟩ := runCalls_mem w _ _ hmem
                        exact absurd he (idCalls_no_start _ _ _ _ c hc)
                    · simp only [List.mem_singleton] at hmem
                      injection hmem with e1 e2 e3
                      subst e1
                      subst e2
                      subst e3
                      refine ⟨(runCalls w (hostCalls spec.hostname)).1 ++
                        (runCalls w
                          (setupCalls root.readonly (filepathJoin bundle root.path))).1,
                        proc, rfl, ?_⟩
                      rw [hfst, runCalls_complete w _ h2]
                      simp [idCalls, List.append_assoc]
                · rw [childRun_args_empty bundle spec w root proc h0 hr h1 hp ha] at hmem
                  rcases List.mem_append.mp hmem with hmem | hmem
                  · obtain ⟨c, hc, he⟩ := runCalls_mem w _ _ hmem
                    exact absurd he (hostCalls_no_start _ _ _ _ c hc)
                  · obtain ⟨c, hc, he⟩ := runCalls_mem w _ _ hmem
                    exact absurd he (setupCalls_no_start _ _ _ _ _ c hc)
  · intro proc hp hfail
    have hsnd : (runCalls w (idCalls proc)).2 = false := by
      rw [runCalls_idCalls_snd]
      rcases hfail with hg | hg <;> simp [hg]
    rcases boolCases (runCalls w (hostCalls spec.hostname)).2 with h0 | h0
    · rw [childRun_host_fail bundle spec w h0]
      refine ⟨rfl, ?_⟩
      intro args env cwd hmem
      obtain ⟨c, hc, he⟩ := runCalls_mem w _ _ hmem
      exact absurd he (hostCalls_no_start _ _ _ _ c hc)
    · cases hr : spec.root with
      | none =>
          rw [childRun_root_nil bundle spec w h0 hr]
          refine ⟨rfl, ?_⟩
          intro args env cwd hmem
          obtain ⟨c, hc, he⟩ := runCalls_mem w _ _ hmem
          exact absurd he (hostCalls_no_start _ _ _ _ c hc)
      | some root =>
          rcases boolCases
              (runCalls w (setupCalls root.readonly (filepathJoin bundle root.path))).2 with
            h1 | h1
          · rw [childRun_setup_fail bundle spec w root h0 hr h1]
            refine ⟨rfl, ?_⟩
            intro args env cwd hmem
            rcases List.mem_append.mp hmem with hmem | hmem
            · obtain ⟨c, hc, he⟩ := runCalls_mem w _ _ hmem
              exact absurd he (hostCalls_no_start _ _ _ _ c hc)
            · obtain ⟨c, hc, he⟩ := runCalls_mem w _ _ hmem
              exact absurd he (setupCalls_no_start _ _ _ _ _ c hc)
          · rcases boolCases proc.args.isEmpty with ha | ha
            · rw [childRun_id_fail bundle spec w root proc h0 hr h1 hp ha hsnd]
              refine ⟨rfl, ?_⟩
              intro args env cwd hmem
              rcases List.mem_append.mp hmem with hmem | hmem
              · rcases List.mem_append.mp hmem with hmem | hmem
                · obtain ⟨c, hc, he⟩ := runCalls_mem w _ _ hmem
                  exact absurd he (hostCalls_no_start _ _ _ _ c hc)
                · obtain ⟨c, hc, he⟩ := runCalls_mem w _ _ hmem
                  exact absurd he (setupCalls_no_start _ _ _ _ _ c hc)
              · obtain ⟨c, hc, he⟩ := runCalls_mem w _ _ hmem
                exact absurd he (idCalls_no_start _ _ _ _ c hc)
            · rw [childRun_args_empty bundle spec w root proc h0 hr h1 hp ha]
              refine ⟨rfl, ?_⟩
              intro args env cwd hmem
              rcases List.mem_append.mp hmem with hmem | hmem
              · obtain ⟨c, hc, he⟩ := runCalls_mem w _ _ hmem
                exact absurd he (hostCalls_no_start _ _ _ _ c hc)
              · obtain ⟨c, hc, he⟩ := runCalls_mem w _ _ hmem
                exact absurd he (setupCalls_no_start _ _ _ _ _ c hc)

end MiniContainerd
